import Mathlib

/-
Verification development for the nexusrpc contract-definition and
contract-validation core:

  src/.venv/lib/python3.12/site-packages/nexusrpc/_service.py
  src/.venv/lib/python3.12/site-packages/nexusrpc/_util.py
  src/.venv/lib/python3.12/site-packages/nexusrpc/handler/_operation_handler.py

The Python code is shallowly embedded as pure Lean functions.  Fallible code
returns Except NexusError.  The error taxonomy of the specification
(DefinitionError, TypeMismatchError, ConfigurationError,
MissingImplementationError, UnsupportedOperationError) is a per-raise-site
renaming of the CPython exception classes the code actually raises
(ValueError / TypeError / RuntimeError / NotImplementedError); each embedded
raise site below is mapped to the taxonomy constructor the specification
assigns to it, and the mapping is noted in a comment at the raise site.
Python dicts are embedded as insertion-ordered association lists with unique
keys; dict/attribute mutation is embedded by explicit state passing.
-/

namespace Nexus

/-- Python type values as they occur in Operation input/output slots.
`any` embeds typing.Any; `cls c` embeds a plain class (identified by a
numeral, with the ambient class hierarchy supplied as a Boolean function);
`generic o` embeds a parameterized generic whose typing.get_origin is the
class `o`. -/
inductive PyTy where
  | any : PyTy
  | cls (c : Nat) : PyTy
  | generic (origin : Nat) : PyTy
deriving DecidableEq, Repr

/-- Embeds is_subtype from _util.py (lines 140-145):
`type1 == type2 or issubclass(type1, typing.get_origin(type2) or type2)`.
The ambient Python class hierarchy is the parameter `issub`
(issub c d = issubclass(c, d) for plain classes).  When the first argument
is a parameterized generic or typing.Any, CPython issubclass raises
TypeError; that raise is of the same CPython class (TypeError) as the
variance-violation raises in the caller, and the guarded call sites below
never pass typing.Any, so the case is embedded as a failed comparison.
issubclass(c, typing.Any) is False in CPython 3.12 for c different from Any
itself (caught by the equality branch), hence the `.cls _, .any` case. -/
def is_subtype (issub : Nat → Nat → Bool) (t1 t2 : PyTy) : Bool :=
  if t1 = t2 then true
  else
    match t1, t2 with
    | .cls c, .cls d => issub c d
    | .cls c, .generic o => issub c o
    | .cls _, .any => false
    | _, _ => false

/-- Error taxonomy of the specification (section 7), one constructor per
kind, carrying the (apostrophe-free rendering of the) message text. -/
inductive NexusError where
  | definitionError (msg : String)
  | typeMismatchError (msg : String)
  | configurationError (msg : String)
  | missingImplementationError (msg : String)
  | unsupportedOperationError (msg : String)
deriving DecidableEq, Repr

/-- Decidable equality for Except values, so that concrete runs of the
embedded fallible functions can be checked by decide. -/
instance {ε α : Type} [DecidableEq ε] [DecidableEq α] :
    DecidableEq (Except ε α) := fun x y =>
  match x, y with
  | .ok a, .ok b =>
    if h : a = b then isTrue (by rw [h])
    else isFalse (fun hc => h (by injection hc))
  | .error e, .error f =>
    if h : e = f then isTrue (by rw [h])
    else isFalse (fun hc => h (by injection hc))
  | .ok _, .error _ => isFalse (fun hc => Except.noConfusion hc)
  | .error _, .ok _ => isFalse (fun hc => Except.noConfusion hc)

/-- Embeds the Operation dataclass of _service.py (lines 31-51).
method_name, input_type and output_type are nullable (Optional). -/
structure Operation where
  name : String
  method_name : Option String := none
  input_type : Option PyTy := none
  output_type : Option PyTy := none
deriving DecidableEq, Repr

/-- Renders an Optional string the way a Python f-string renders it. -/
def fmtOpt : Option String → String
  | none => "None"
  | some s => s

/-- Embeds Operation._validation_errors (_service.py lines 57-69).
Python `not self.name` / `not self.method_name` are true for both None and
the empty string; a class object stored in input_type/output_type is always
truthy, so those two checks fire exactly on None. -/
def Operation.validation_errors (op : Operation) : List String :=
  (if op.name = "" then
      ["Operation has no name (method_name is " ++ fmtOpt op.method_name ++ ")"]
    else []) ++
  (if op.method_name.getD "" = "" then
      ["Operation " ++ op.name ++ " has no method name"]
    else []) ++
  (if op.input_type.isNone then
      ["Operation " ++ op.name ++ " has no input type"]
    else []) ++
  (if op.output_type.isNone then
      ["Operation " ++ op.name ++ " has no output type"]
    else [])

/-- Embeds a finalized ServiceDefinition (_service.py lines 143-155): a
name together with the insertion-ordered mapping operation name ->
Operation. -/
structure ServiceDefinition where
  name : String
  operations : List (String × Operation)
deriving DecidableEq, Repr

/-- Association-list lookup; embeds Python dict lookup (keys are unique in
every list produced by the embedded code). -/
def alookup {α : Type} : List (String × α) → String → Option α
  | [], _ => none
  | (k, v) :: rest, key => if k = key then some v else alookup rest key

/-- Embeds str.join with separator ", " as used by the aggregate validator
(_service.py line 160). -/
def commaJoin : List String → String
  | [] => ""
  | [s] => s
  | s :: rest => s ++ ", " ++ commaJoin rest

/-- Message of the duplicate-method-name validation error
(_service.py line 217). -/
def dupMsg (mn : Option String) : String :=
  "Operation method name " ++ fmtOpt mn ++ " is not unique"

/-- Embeds the loop of ServiceDefinition._validation_errors
(_service.py lines 214-219): walk the operations, tracking the set of seen
method names, emitting a duplicate error and then each operation self-check
list. -/
def dupErrsGo : List (String × Operation) → List (Option String) → List String
  | [], _ => []
  | (_, op) :: rest, seen =>
    (if seen.contains op.method_name then [dupMsg op.method_name] else []) ++
      op.validation_errors ++ dupErrsGo rest (op.method_name :: seen)

/-- Embeds ServiceDefinition._validation_errors (_service.py lines
210-220). -/
def ServiceDefinition.validation_errors_of
    (name : String) (ops : List (String × Operation)) : List String :=
  (if name = "" then ["Service has no name"] else []) ++ dupErrsGo ops []

/-- Embeds ServiceDefinition construction including __post_init__
(_service.py lines 157-161): the aggregated ValueError is the
DefinitionError of the specification. -/
def mkServiceDefinition (name : String) (ops : List (String × Operation)) :
    Except NexusError ServiceDefinition :=
  match ServiceDefinition.validation_errors_of name ops with
  | [] => .ok ⟨name, ops⟩
  | e :: es =>
    .error (.definitionError
      ("Service definition " ++ name ++ " has validation errors: " ++
        commaJoin (e :: es)))

/-- Embeds the possible values found in a service class __dict__ during the
scan of _service.py lines 234-242: an Operation instance, a value whose
typing.get_origin is Operation (the accidental `=` misuse), or anything
else. -/
inductive DictVal where
  | opInst (op : Operation)
  | opClassRef
  | otherVal
deriving DecidableEq, Repr

/-- Embeds the possible values of a class type annotation as classified by
_service.py lines 244-248: the bare Operation class (get_args yields the
empty tuple), a parameterized Operation[args] with its get_args list, or an
unrelated annotation. -/
inductive AnnVal where
  | opBare
  | opGeneric (args : List PyTy)
  | otherAnn
deriving DecidableEq, Repr

/-- Embeds a user service definition class as seen by
ServiceDefinition.from_class: its __name__, its own __dict__ (insertion
ordered), its own type annotations, and the result of
get_service_definition for each class of mro()[1:] in order.  The __dict__
doubles as the attribute store the decorator writes into. -/
structure UserClass where
  name : String
  dict_entries : List (String × DictVal)
  anns : List (String × AnnVal)
  mro_defns : List (Option ServiceDefinition)
deriving DecidableEq, Repr

/-- Embeds the __dict__ scan of _collect_operations (_service.py lines
233-242): collect the Operation instances; a value whose get_origin is
Operation raises TypeError, a usage error the specification files under
DefinitionError. -/
def scanDict : List (String × DictVal) →
    Except NexusError (List (String × Operation))
  | [] => .ok []
  | (k, .opInst op) :: rest =>
    match scanDict rest with
    | .error e => .error e
    | .ok l => .ok ((k, op) :: l)
  | (_, .opClassRef) :: _ =>
    .error (.definitionError
      ("Operation definitions in the service definition should look like " ++
       "my_op: nexusrpc.Operation[InputType, OutputType]. Did you " ++
       "accidentally use = instead of : ?"))
  | (_, .otherVal) :: rest => scanDict rest

/-- The Operation-instance entries of a __dict__, in order (the success
value of scanDict). -/
def dictOps0 (l : List (String × DictVal)) : List (String × Operation) :=
  l.filterMap (fun p =>
    match p.2 with
    | .opInst op => some (p.1, op)
    | _ => none)

/-- Embeds the annotation comprehension of _service.py lines 244-248: keep
annotations that are the bare Operation class or a parameterized Operation,
recording typing.get_args (empty for the bare class). -/
def opAnnList (uc : UserClass) : List (String × List PyTy) :=
  uc.anns.filterMap (fun p =>
    match p.2 with
    | .opBare => some (p.1, [])
    | .opGeneric args => some (p.1, args)
    | .otherAnn => none)

/-- Classification of one key of the key union of _service.py line 249:
present in the __dict__ Operation instances and/or among the Operation
annotations. -/
inductive KeySrc where
  | both (op : Operation) (args : List PyTy)
  | instOnly (op : Operation)
  | annOnly (args : List PyTy)
deriving DecidableEq, Repr

/-- Embeds the key union `operations.keys() | annotations.keys()` of
_service.py line 249 together with the per-key data.  CPython iterates this
set union in unspecified hash order; the embedding fixes the order
instance-keys-then-annotation-only-keys.  Every property proved below is
independent of that order. -/
def keyData (dops : List (String × Operation))
    (annsL : List (String × List PyTy)) : List (String × KeySrc) :=
  dops.map (fun p =>
    match alookup annsL p.1 with
    | some args => (p.1, KeySrc.both p.2 args)
    | none => (p.1, KeySrc.instOnly p.2)) ++
  (annsL.filter (fun q => (alookup dops q.1).isNone)).map
    (fun q => (q.1, KeySrc.annOnly q.2))

/-- Embeds _service.py lines 275-280: enrich an explicit Operation instance
with the annotation input type; a conflict raises ValueError, the
TypeMismatchError of the specification. -/
def enrichInput (op : Operation) (i : PyTy) : Except NexusError Operation :=
  match op.input_type with
  | none => .ok { op with input_type := some i }
  | some t =>
    if t = i then .ok op
    else .error (.typeMismatchError
      ("Operation " ++ op.name ++ " input_type must match type parameter"))

/-- Embeds _service.py lines 281-286 (output counterpart of enrichInput). -/
def enrichOutput (op : Operation) (o : PyTy) : Except NexusError Operation :=
  match op.output_type with
  | none => .ok { op with output_type := some o }
  | some t =>
    if t = o then .ok op
    else .error (.typeMismatchError
      ("Operation " ++ op.name ++ " output_type must match type parameter"))

/-- Embeds _service.py line 298: default a missing method name to the field
name. -/
def defaultMn (k : String) (op : Operation) : Operation :=
  if op.method_name.isNone then { op with method_name := some k } else op

/-- Truthiness of an Optional string, as tested by Python
`if not op.method_name` (_service.py line 291) and
`if not op_defn.method_name` (_operation_handler.py line 214): true for
None and for the empty string. -/
def optFalsy : Option String → Bool
  | none => true
  | some s => s = ""

/-- Embeds the body of the key-union loop of _collect_operations
(_service.py lines 249-299) for one key `k`.  The wrong-arity TypeError and
the method-name-mismatch ValueError are usage errors the specification
files under DefinitionError.  In the branch without an Operation type
annotation, line 291 `if not op.method_name` is a truthiness test: a
missing OR explicitly empty method name is replaced by the field name, and
only an explicitly set non-empty method name different from the field name
raises (lines 293-296); the annotated branches never run this check and
default only a method name that is literally None (line 298). -/
def processKey (k : String) : KeySrc → Except NexusError Operation
  | .annOnly [i, o] =>
    .ok { name := k, method_name := some k,
          input_type := some i, output_type := some o }
  | .annOnly _ =>
    .error (.definitionError
      ("Operation types in the service definition should look like " ++
       "nexusrpc.Operation[InputType, OutputType], but " ++ k ++
       " has the wrong number of type parameters."))
  | .both op [i, o] =>
    match enrichInput op i with
    | .error e => .error e
    | .ok op1 =>
      match enrichOutput op1 o with
      | .error e => .error e
      | .ok op2 => .ok (defaultMn k op2)
  | .both _ _ =>
    .error (.definitionError
      ("Operation types in the service definition should look like " ++
       "nexusrpc.Operation[InputType, OutputType], but " ++ k ++
       " has the wrong number of type parameters."))
  | .instOnly op =>
    if optFalsy op.method_name then .ok { op with method_name := some k }
    else if op.method_name = some k then .ok (defaultMn k op)
    else .error (.definitionError
      ("Operation " ++ k ++ " method_name (" ++ fmtOpt op.method_name ++
       ") must match attribute name " ++ k))

/-- Runs processKey over every key of the union, failing on the first raise
(the loop of _service.py lines 249-299). -/
def processAll : List (String × KeySrc) → Except NexusError (List Operation)
  | [] => .ok []
  | p :: rest =>
    match processKey p.1 p.2 with
    | .error e => .error e
    | .ok op =>
      match processAll rest with
      | .error e => .error e
      | .ok l => .ok (op :: l)

/-- Embeds the re-keying by operation name of _service.py lines 301-308:
a duplicate operation name raises ValueError, a DefinitionError of the
specification. -/
def opsByNameGo : List Operation → List (String × Operation) →
    Except NexusError (List (String × Operation))
  | [], acc => .ok acc
  | op :: rest, acc =>
    if (alookup acc op.name).isSome then
      .error (.definitionError
        ("Operation " ++ op.name ++ " is defined multiple times"))
    else opsByNameGo rest (acc ++ [(op.name, op)])

/-- Embeds ServiceDefinition._collect_operations (_service.py lines
222-308). -/
def collect_operations (uc : UserClass) :
    Except NexusError (List (String × Operation)) :=
  match scanDict uc.dict_entries with
  | .error e => .error e
  | .ok dops =>
    match processAll (keyData dops (opAnnList uc)) with
    | .error e => .error e
    | .ok procd => opsByNameGo procd []

/-- Embeds the generator of _service.py lines 186-192: the first class of
mro()[1:] that carries a ServiceDefinition. -/
def firstParentDefn : List (Option ServiceDefinition) →
    Option ServiceDefinition
  | [] => none
  | some d :: _ => some d
  | none :: rest => firstParentDefn rest

/-- Embeds the set comprehension of _service.py line 191: the method names
of the operations collected on the class itself, skipping falsy (None or
empty) ones. -/
def ownMethodNames (ops : List (String × Operation)) : List String :=
  ops.filterMap (fun p =>
    match p.2.method_name with
    | some m => if m = "" then none else some m
    | none => none)

/-- Embeds the inheritance merge loop of _service.py lines 192-206: for
each operation of the nearest ancestral definition, fail on a method-name
collision with the own operations or a name collision with any operation
already present (both ValueError raises: DefinitionError in the
specification taxonomy), otherwise add the operation unchanged under its
name. -/
def mergeGo (mnames : List String) :
    List (String × Operation) → List (String × Operation) →
    Except NexusError (List (String × Operation))
  | acc, [] => .ok acc
  | acc, (_, op) :: rest =>
    if (match op.method_name with
        | some m => mnames.contains m
        | none => false) then
      .error (.definitionError
        ("Operation method name " ++ fmtOpt op.method_name ++
         " also occurs in a service definition inherited from a parent " ++
         "class. This is not allowed."))
    else if (alookup acc op.name).isSome then
      .error (.definitionError
        ("Operation name " ++ op.name ++
         " also occurs in a service definition inherited from a parent " ++
         "class. This is not allowed."))
    else mergeGo mnames (acc ++ [(op.name, op)]) rest

/-- Embeds ServiceDefinition.from_class (_service.py lines 163-208). -/
def ServiceDefinition.from_class (uc : UserClass) (name : String) :
    Except NexusError ServiceDefinition :=
  match collect_operations uc with
  | .error e => .error e
  | .ok operations =>
    match firstParentDefn uc.mro_defns with
    | none => mkServiceDefinition name operations
    | some pd =>
      match mergeGo (ownMethodNames operations) operations pd.operations with
      | .error e => .error e
      | .ok merged => mkServiceDefinition name merged

/-- Embeds Python class-attribute assignment setattr(cls, k, v) on the
class __dict__: update the first binding of k in place, else append. -/
def setattrD : List (String × DictVal) → String → DictVal →
    List (String × DictVal)
  | [], k, v => [(k, v)]
  | (k0, v0) :: rest, k, v =>
    if k0 = k then (k0, v) :: rest else (k0, v0) :: setattrD rest k v

/-- The observable result of decorating a service class: the stored
definition (set_service_definition) and the class __dict__ after the
setattr loop. -/
structure DecoratedClass where
  defn : ServiceDefinition
  dict : List (String × DictVal)
deriving DecidableEq, Repr

/-- Embeds the nexusrpc.service decorator (_service.py lines 82-140):
reject an explicit empty name (ValueError, a DefinitionError), build the
definition from the class under the explicit name or the class name, store
it, and setattr every operation of the built definition onto the class
under its definition key. -/
def service (uc : UserClass) (nm : Option String) :
    Except NexusError DecoratedClass :=
  if nm = some "" then
    .error (.definitionError "Service name must not be empty.")
  else
    match ServiceDefinition.from_class uc (nm.getD uc.name) with
    | .error e => .error e
    | .ok defn =>
      .ok ⟨defn,
        defn.operations.foldl
          (fun acc p => setattrD acc p.1 (.opInst p.2)) uc.dict_entries⟩

/-- Embeds the value of get_operation_factory(method) as used at
_operation_handler.py line 226: an operation handler factory method,
carrying its attached Operation descriptor when the attached value is a
valid Operation (isinstance check at line 227), none otherwise. -/
structure Factory where
  op_defn : Option Operation
deriving DecidableEq, Repr

/-- The method-name -> factory mapping built by
collect_operation_handler_factories_by_method_name (a Python dict,
insertion ordered, unique keys). -/
abbrev FactoryMap := List (String × Factory)

/-- Embeds dict.pop(key, None) (_operation_handler.py line 219): remove and
return the binding of key, returning the map unchanged when absent. -/
def popKey : FactoryMap → String → Option Factory × FactoryMap
  | [], _ => (none, [])
  | (k, f) :: rest, key =>
    if k = key then (some f, rest)
    else
      let r := popKey rest key
      (r.1, (k, f) :: r.2)

/-- Embeds the input-type contravariance violation test of
_operation_handler.py lines 242-250: both types set, neither is
typing.Any, and the definition input type is neither equal to nor
is_subtype of the handler input type. -/
def input_type_conflict (issub : Nat → Nat → Bool) (m d : Operation) : Bool :=
  match m.input_type, d.input_type with
  | some mi, some di =>
    !(mi = PyTy.any : Bool) && !(di = PyTy.any : Bool) &&
      !((di = mi : Bool) || is_subtype issub di mi)
  | _, _ => false

/-- Embeds the output-type covariance violation test of
_operation_handler.py lines 260-264: both types set, neither is
typing.Any, and the handler output type is not is_subtype of the
definition output type. -/
def output_type_conflict (issub : Nat → Nat → Bool) (m d : Operation) : Bool :=
  match m.output_type, d.output_type with
  | some mo, some dv =>
    !(mo = PyTy.any : Bool) && !(dv = PyTy.any : Bool) &&
      !(is_subtype issub mo dv)
  | _, _ => false

/-- Embeds one iteration of the loop of validate_operation_handler_methods
(_operation_handler.py lines 213-272) for definition operation d_op against
the current working map, returning the map after the pop on success.
Raise-site taxonomy: missing method name ValueError -> DefinitionError (a
malformed definition); missing factory TypeError ->
MissingImplementationError; missing attached Operation ValueError ->
ConfigurationError; name override TypeError and both variance TypeErrors ->
TypeMismatchError. -/
def processOp (issub : Nat → Nat → Bool) (d_op : Operation)
    (m : FactoryMap) : Except NexusError FactoryMap :=
  if optFalsy d_op.method_name then
    .error (.definitionError
      ("Operation " ++ d_op.name ++
       " in service definition does not have a method name."))
  else
    let mn := d_op.method_name.getD ""
    match popKey m mn with
    | (none, _) =>
      .error (.missingImplementationError
        ("Service does not implement an operation with method name " ++ mn ++
         ". But this operation is in the service definition."))
    | (some f, m2) =>
      match f.op_defn with
      | none =>
        .error (.configurationError
          ("Method does not have a valid __nexus_operation__ attribute. " ++
           "Did you forget to decorate the operation method with an " ++
           "operation handler decorator such as " ++
           "nexusrpc.handler.operation_handler?"))
      | some mod =>
        if !((mod.method_name = some mod.name : Bool) ||
             (mod.name = d_op.name : Bool)) then
          .error (.typeMismatchError
            ("Operation " ++ mn ++ " has name " ++ mod.name ++
             ", but the name in the service definition is " ++ d_op.name ++
             ". Operation handlers may not override the name of an " ++
             "operation in the service definition."))
        else if input_type_conflict issub mod d_op then
          .error (.typeMismatchError
            ("Operation " ++ mn ++ " has an input type which is not " ++
             "compatible with the input type in the interface. The input " ++
             "type must be the same as or a superclass of the operation " ++
             "definition input type."))
        else if output_type_conflict issub mod d_op then
          .error (.typeMismatchError
            ("Operation " ++ mn ++ " has an output type which is not " ++
             "compatible with the output type in the interface. The " ++
             "output type must be the same as or a subclass of the " ++
             "operation definition output type."))
        else .ok m2

/-- Runs processOp over the definition operations in order, stopping at the
first raise and returning the working map at that point (the loop of
_operation_handler.py lines 213-272). -/
def validateLoop (issub : Nat → Nat → Bool) :
    List Operation → FactoryMap → FactoryMap × Option NexusError
  | [], m => (m, none)
  | d :: rest, m =>
    match processOp issub d m with
    | .error e => (m, some e)
    | .ok m2 => validateLoop issub rest m2

/-- Embeds the final leftover check of _operation_handler.py lines 273-277
(ValueError -> ConfigurationError): the extra operation names are listed
sorted. -/
def insertSorted (s : String) : List String → List String
  | [] => [s]
  | x :: xs =>
    match compare s x with
    | .gt => x :: insertSorted s xs
    | _ => s :: x :: xs

/-- Insertion sort on strings, embedding Python sorted(). -/
def sortStrs : List String → List String
  | [] => []
  | x :: xs => insertSorted x (sortStrs xs)

/-- The extra-operations error of _operation_handler.py lines 274-277. -/
def extraOpsError (m : FactoryMap) : NexusError :=
  .configurationError
    ("Service implements more operations than the interface. " ++
     "Extra operations: " ++ commaJoin (sortStrs (m.map Prod.fst)) ++ ".")

/-- Embeds validate_operation_handler_methods (_operation_handler.py lines
194-277) on the value level: the result is the raised error, or none when
validation passes.  The copy at line 212 is modeled in validate_st below. -/
def validate_operation_handler_methods (issub : Nat → Nat → Bool)
    (um : FactoryMap) (defn : ServiceDefinition) : Option NexusError :=
  match validateLoop issub (defn.operations.map Prod.snd) um with
  | (_, some e) => some e
  | (m, none) => if m.isEmpty then none else some (extraOpsError m)

/-- A heap of dict objects; a dict handle is an index.  Used to state the
aliasing behaviour of validate_operation_handler_methods: the function
copies the caller dict (line 212) and pops only from the copy. -/
abbrev Store := List FactoryMap

/-- Reads the dict at a handle (missing handles read as empty). -/
def readD : Store → Nat → FactoryMap
  | [], _ => []
  | m :: _, 0 => m
  | _ :: rest, n + 1 => readD rest n

/-- Overwrites the dict at a handle (out-of-range writes are dropped). -/
def writeD : Store → Nat → FactoryMap → Store
  | [], _, _ => []
  | _ :: rest, 0, v => v :: rest
  | m :: rest, n + 1, v => m :: writeD rest n v

/-- Embeds validate_operation_handler_methods at the heap level.  The
caller passes the handle of its method-name -> factory dict; line 212
(`user_methods_by_method_name = user_methods_by_method_name.copy()`)
allocates a fresh dict object initialized with the caller dict content, and
every subsequent pop of the loop mutates only that fresh object. -/
def validate_st (issub : Nat → Nat → Bool) (s : Store) (hd : Nat)
    (defn : ServiceDefinition) : Store × Option NexusError :=
  let w := s.length
  let s1 := s ++ [readD s hd]
  let pr := validateLoop issub (defn.operations.map Prod.snd) (readD s1 w)
  let s2 := writeD s1 w pr.1
  match pr.2 with
  | some e => (s2, some e)
  | none => if pr.1.isEmpty then (s2, none) else (s2, some (extraOpsError pr.1))

/-- Modelled from the spec: the four operation context types of
nexusrpc/handler/_common.py (not under src/), each an opaque carrier of
call-scoped metadata (spec section 3, OperationContext variants). -/
structure StartOperationContext where
  headers : List (String × String)
deriving DecidableEq, Repr

/-- Modelled from the spec: fetch-info phase context (spec section 3). -/
structure FetchOperationInfoContext where
  headers : List (String × String)
deriving DecidableEq, Repr

/-- Modelled from the spec: fetch-result phase context (spec section 3). -/
structure FetchOperationResultContext where
  headers : List (String × String)
deriving DecidableEq, Repr

/-- Modelled from the spec: cancel phase context (spec section 3). -/
structure CancelOperationContext where
  headers : List (String × String)
deriving DecidableEq, Repr

/-- Modelled from the spec: the Sync variant of StartOperationResult
(nexusrpc/handler/_common.py, not under src/), carrying the final output
value directly (spec section 3). -/
structure StartOperationResultSync (O : Type) where
  value : O
deriving DecidableEq, Repr

/-- Modelled from the spec: operation status snapshot returned by
fetch_info (nexusrpc/_common.py, not under src/). -/
structure OperationInfo where
  token : String
  status : String
deriving DecidableEq, Repr

/-- An asynchronous Python callable as supplied to SyncOperationHandler:
whether it is an `async def` (is_async_callable of _util.py lines 105-116),
and the value its returned awaitable resolves to. -/
structure AsyncFn (I O : Type) where
  is_async : Bool
  run : StartOperationContext → I → O

/-- Embeds the state of a constructed SyncOperationHandler
(_operation_handler.py lines 92-144): the stored start callable. -/
structure SyncOperationHandler (I O : Type) where
  _start : StartOperationContext → I → O

/-- Embeds SyncOperationHandler.__init__ (_operation_handler.py lines
100-111): a non-async callable raises RuntimeError, the ConfigurationError
of the specification. -/
def SyncOperationHandler.make {I O : Type} (start : AsyncFn I O) :
    Except NexusError (SyncOperationHandler I O) :=
  if start.is_async then .ok ⟨start.run⟩
  else
    .error (.configurationError
      ("is not an async def method. SyncOperationHandler must be " ++
       "initialized with an async def method."))

/-- Embeds SyncOperationHandler.start (_operation_handler.py lines
113-125): wrap the awaited value of the stored callable in a Sync result. -/
def SyncOperationHandler.start {I O : Type} (hd : SyncOperationHandler I O)
    (ctx : StartOperationContext) (input : I) : StartOperationResultSync O :=
  ⟨hd._start ctx input⟩

/-- Embeds SyncOperationHandler.fetch_info (_operation_handler.py lines
127-132): always raises NotImplementedError, the UnsupportedOperationError
of the specification. -/
def SyncOperationHandler.fetch_info {I O : Type}
    (_hd : SyncOperationHandler I O) (_ctx : FetchOperationInfoContext)
    (_token : String) : Except NexusError OperationInfo :=
  .error (.unsupportedOperationError
    "Cannot fetch operation info for an operation that responded synchronously.")

/-- Embeds SyncOperationHandler.fetch_result (_operation_handler.py lines
134-139). -/
def SyncOperationHandler.fetch_result {I O : Type}
    (_hd : SyncOperationHandler I O) (_ctx : FetchOperationResultContext)
    (_token : String) : Except NexusError O :=
  .error (.unsupportedOperationError
    "Cannot fetch the result of an operation that responded synchronously.")

/-- Embeds SyncOperationHandler.cancel (_operation_handler.py lines
141-144). -/
def SyncOperationHandler.cancel {I O : Type}
    (_hd : SyncOperationHandler I O) (_ctx : CancelOperationContext)
    (_token : String) : Except NexusError Unit :=
  .error (.unsupportedOperationError
    "An operation that responded synchronously cannot be cancelled.")

/-- A value stored under the hidden __nexus_service__ class attribute, with
its Python truthiness: either a genuine ServiceDefinition (dataclass
instances are truthy) or some other object. -/
inductive NexusMarker where
  | svcDefn (d : ServiceDefinition)
  | otherMarker (truthy : Bool)
deriving DecidableEq, Repr

/-- Python truthiness of a stored marker. -/
def markerTruthy : NexusMarker → Bool
  | .svcDefn _ => true
  | .otherMarker t => t

/-- Whether a stored marker is a ServiceDefinition instance. -/
def isSvcDefnMarker : NexusMarker → Bool
  | .svcDefn _ => true
  | .otherMarker _ => false

/-- A Python class as seen by attribute lookup of __nexus_service__: the
binding in its own __dict__ (if any) and the bindings in the own dicts of
the remaining classes of its __mro__, in order. -/
structure PyClassObj where
  own_nexus : Option NexusMarker
  mro_tail : List (Option NexusMarker)
deriving DecidableEq, Repr

/-- First bound marker of an mro tail. -/
def firstMarker : List (Option NexusMarker) → Option NexusMarker
  | [] => none
  | some v :: _ => some v
  | none :: rest => firstMarker rest

/-- Ordinary inherited attribute lookup of __nexus_service__ via getattr:
walk the full method resolution order. -/
def getattrNexus (c : PyClassObj) : Option NexusMarker :=
  match c.own_nexus with
  | some v => some v
  | none => firstMarker c.mro_tail

/-- Embeds get_service_definition (_util.py lines 19-33) for a class
argument: read __nexus_service__ from the own __dict__ only (the comment at
lines 23-24 states that getattr is avoided precisely so that a
non-decorated subclass does not act as a service definition), and raise
ValueError (a DefinitionError) when a truthy non-ServiceDefinition value is
stored there. -/
def get_service_definition (c : PyClassObj) :
    Except NexusError (Option NexusMarker) :=
  match c.own_nexus with
  | none => .ok none
  | some v =>
    if markerTruthy v && !(isSvcDefnMarker v) then
      .error (.definitionError
        ("Service definition has a __nexus_service__ attribute that is " ++
         "not a ServiceDefinition."))
    else .ok (some v)

/-! Helper lemmas shared by the claim theorems. -/

theorem alookup_eq_none {α : Type} (l : List (String × α)) (k : String) :
    alookup l k = none ↔ k ∉ l.map Prod.fst := by
  induction l with
  | nil => simp [alookup]
  | cons p rest ih =>
    obtain ⟨k0, v0⟩ := p
    by_cases hk : k0 = k
    · subst hk
      simp [alookup]
    · simp [alookup, hk, ih, Ne.symm hk]

theorem alookup_mem {α : Type} {l : List (String × α)} {k : String} {v : α}
    (h : alookup l k = some v) : (k, v) ∈ l := by
  induction l with
  | nil => simp [alookup] at h
  | cons p rest ih =>
    obtain ⟨k0, v0⟩ := p
    by_cases hk : k0 = k
    · subst hk
      simp [alookup] at h
      simp [h]
    · simp [alookup, hk] at h
      simp [ih h]

theorem alookup_append_left {α : Type} {l : List (String × α)} {k : String}
    {v : α} (l2 : List (String × α)) (h : alookup l k = some v) :
    alookup (l ++ l2) k = some v := by
  induction l with
  | nil => simp [alookup] at h
  | cons p rest ih =>
    obtain ⟨k0, v0⟩ := p
    by_cases hk : k0 = k
    · subst hk
      simp [alookup] at h ⊢
      exact h
    · simp [alookup, hk] at h ⊢
      exact ih h

theorem alookup_append_right {α : Type} {l : List (String × α)} {k : String}
    (l2 : List (String × α)) (h : alookup l k = none) :
    alookup (l ++ l2) k = alookup l2 k := by
  induction l with
  | nil => simp
  | cons p rest ih =>
    obtain ⟨k0, v0⟩ := p
    by_cases hk : k0 = k
    · subst hk
      simp [alookup] at h
    · simp [alookup, hk] at h ⊢
      exact ih h

theorem alookup_isSome_append {α : Type} {l : List (String × α)} {k : String}
    (l2 : List (String × α)) (h : (alookup l k).isSome) :
    (alookup (l ++ l2) k).isSome := by
  obtain ⟨v, hv⟩ := Option.isSome_iff_exists.mp h
  rw [alookup_append_left l2 hv]
  rfl

theorem opsByNameGo_props (l : List Operation) :
    ∀ (acc r : List (String × Operation)), opsByNameGo l acc = .ok r →
      (∀ k v, alookup acc k = some v → alookup r k = some v) ∧
      (∀ op ∈ l, alookup r op.name = some op) := by
  induction l with
  | nil =>
    intro acc r h
    simp [opsByNameGo] at h
    subst h
    exact ⟨fun _ _ hv => hv, by simp⟩
  | cons op rest ih =>
    intro acc r h
    by_cases hdup : (alookup acc op.name).isSome
    · simp [opsByNameGo, hdup] at h
    · simp [opsByNameGo, hdup] at h
      have hnone : alookup acc op.name = none := by
        cases hv : alookup acc op.name with
        | none => rfl
        | some v => rw [hv] at hdup; simp at hdup
      obtain ⟨hpre, hmem⟩ := ih (acc ++ [(op.name, op)]) r h
      refine ⟨fun k v hv => hpre k v (alookup_append_left _ hv), ?_⟩
      intro op2 hop2
      rcases List.mem_cons.mp hop2 with heq | htail
      · subst heq
        apply hpre
        rw [alookup_append_right _ hnone]
        simp [alookup]
      · exact hmem op2 htail

theorem opsByNameGo_nodup (l : List Operation) :
    ∀ (acc r : List (String × Operation)), opsByNameGo l acc = .ok r →
      (acc.map Prod.fst).Nodup → (r.map Prod.fst).Nodup := by
  induction l with
  | nil =>
    intro acc r h hacc
    simp [opsByNameGo] at h
    subst h
    exact hacc
  | cons op rest ih =>
    intro acc r h hacc
    by_cases hdup : (alookup acc op.name).isSome
    · simp [opsByNameGo, hdup] at h
    · simp [opsByNameGo, hdup] at h
      have hnone : alookup acc op.name = none := by
        cases hv : alookup acc op.name with
        | none => rfl
        | some v => rw [hv] at hdup; simp at hdup
      apply ih _ _ h
      rw [List.map_append]
      rw [List.nodup_append]
      refine ⟨hacc, by simp, ?_⟩
      intro x hx
      simp only [List.map_cons, List.map_nil, List.mem_singleton]
      intro hx2
      subst hx2
      exact (alookup_eq_none acc op.name).mp hnone hx

theorem mergeGo_props (ps : List (String × Operation)) (mnames : List String) :
    ∀ (acc r : List (String × Operation)), mergeGo mnames acc ps = .ok r →
      (∀ k v, alookup acc k = some v → alookup r k = some v) ∧
      (∀ p ∈ ps, alookup r p.2.name = some p.2) := by
  induction ps with
  | nil =>
    intro acc r h
    simp [mergeGo] at h
    subst h
    exact ⟨fun _ _ hv => hv, by simp⟩
  | cons q rest ih =>
    intro acc r h
    obtain ⟨qk, op⟩ := q
    by_cases hmn : (match op.method_name with
        | some m => mnames.contains m
        | none => false) = true
    · simp only [mergeGo, if_pos hmn] at h
      exact absurd h (by simp)
    · by_cases hname : (alookup acc op.name).isSome
      · simp only [mergeGo, if_neg hmn, if_pos hname] at h
        exact absurd h (by simp)
      · simp only [mergeGo, if_neg hmn, if_neg hname] at h
        have hnone : alookup acc op.name = none := by
          cases hv : alookup acc op.name with
          | none => rfl
          | some v => rw [hv] at hname; simp at hname
        obtain ⟨hpre, hmem⟩ := ih (acc ++ [(op.name, op)]) r h
        refine ⟨fun k v hv => hpre k v (alookup_append_left _ hv), ?_⟩
        intro p hp
        rcases List.mem_cons.mp hp with heq | htail
        · subst heq
          apply hpre
          rw [alookup_append_right _ hnone]
          simp [alookup]
        · exact hmem p htail

theorem mergeGo_nodup (ps : List (String × Operation)) (mnames : List String) :
    ∀ (acc r : List (String × Operation)), mergeGo mnames acc ps = .ok r →
      (acc.map Prod.fst).Nodup → (r.map Prod.fst).Nodup := by
  induction ps with
  | nil =>
    intro acc r h hacc
    simp [mergeGo] at h
    subst h
    exact hacc
  | cons q rest ih =>
    intro acc r h hacc
    obtain ⟨qk, op⟩ := q
    by_cases hmn : (match op.method_name with
        | some m => mnames.contains m
        | none => false) = true
    · simp only [mergeGo, if_pos hmn] at h
      exact absurd h (by simp)
    · by_cases hname : (alookup acc op.name).isSome
      · simp only [mergeGo, if_neg hmn, if_pos hname] at h
        exact absurd h (by simp)
      · simp only [mergeGo, if_neg hmn, if_neg hname] at h
        have hnone : alookup acc op.name = none := by
          cases hv : alookup acc op.name with
          | none => rfl
          | some v => rw [hv] at hname; simp at hname
        apply ih _ _ h
        rw [List.map_append, List.nodup_append]
        refine ⟨hacc, by simp, ?_⟩
        intro x hx
        simp only [List.map_cons, List.map_nil, List.mem_singleton]
        intro hx2
        subst hx2
        exact (alookup_eq_none acc op.name).mp hnone hx

theorem mergeGo_error_of_collision (ps : List (String × Operation))
    (mnames : List String) :
    ∀ (acc : List (String × Operation)),
      (∃ p ∈ ps, (∃ m, p.2.method_name = some m ∧ m ∈ mnames) ∨
        (alookup acc p.2.name).isSome) →
      ∃ msg, mergeGo mnames acc ps = .error (.definitionError msg) := by
  induction ps with
  | nil =>
    intro acc h
    obtain ⟨p, hp, _⟩ := h
    simp at hp
  | cons q rest ih =>
    intro acc h
    obtain ⟨qk, op⟩ := q
    by_cases hmn : (match op.method_name with
        | some m => mnames.contains m
        | none => false) = true
    · refine ⟨"Operation method name " ++ fmtOpt op.method_name ++
        " also occurs in a service definition inherited from a parent " ++
        "class. This is not allowed.", ?_⟩
      simp only [mergeGo, if_pos hmn]
    · by_cases hname : (alookup acc op.name).isSome
      · refine ⟨"Operation name " ++ op.name ++
          " also occurs in a service definition inherited from a parent " ++
          "class. This is not allowed.", ?_⟩
        simp only [mergeGo, if_neg hmn, if_pos hname]
      · simp only [mergeGo, if_neg hmn, if_neg hname]
        apply ih
        obtain ⟨p, hp, hcol⟩ := h
        rcases List.mem_cons.mp hp with heq | htail
        · exfalso
          subst heq
          rcases hcol with ⟨m, hm, hmem⟩ | hs
          · apply hmn
            rw [hm]
            simp [List.contains, List.elem_eq_mem, hmem]
          · exact hname hs
        · refine ⟨p, htail, ?_⟩
          rcases hcol with hm | hs
          · exact Or.inl hm
          · exact Or.inr (alookup_isSome_append _ hs)

theorem processAll_mem (kd : List (String × KeySrc)) :
    ∀ (l : List Operation), processAll kd = .ok l →
      ∀ p ∈ kd, ∃ op, processKey p.1 p.2 = .ok op ∧ op ∈ l := by
  induction kd with
  | nil =>
    intro l _ p hp
    simp at hp
  | cons q rest ih =>
    intro l h p hp
    cases hq : processKey q.1 q.2 with
    | error e => simp [processAll, hq] at h
    | ok op =>
      simp only [processAll, hq] at h
      cases hr : processAll rest with
      | error e => rw [hr] at h; exact absurd h (by simp)
      | ok l2 =>
        rw [hr] at h
        simp at h
        subst h
        rcases List.mem_cons.mp hp with heq | htail
        · subst heq
          exact ⟨op, hq, by simp⟩
        · obtain ⟨op2, hop2, hmem⟩ := ih l2 hr p htail
          exact ⟨op2, hop2, by simp [hmem]⟩

theorem processAll_error (kd : List (String × KeySrc)) :
    ∀ p ∈ kd, ∀ e, processKey p.1 p.2 = .error e →
      ∃ e2, processAll kd = .error e2 := by
  induction kd with
  | nil =>
    intro p hp
    simp at hp
  | cons q rest ih =>
    intro p hp e he
    rcases List.mem_cons.mp hp with heq | htail
    · subst heq
      exact ⟨e, by simp [processAll, he]⟩
    · cases hq : processKey q.1 q.2 with
      | error e2 => exact ⟨e2, by simp [processAll, hq]⟩
      | ok op =>
        obtain ⟨e2, he2⟩ := ih p htail e he
        exact ⟨e2, by simp [processAll, hq, he2]⟩

theorem scanDict_ok (l : List (String × DictVal)) :
    ∀ r, scanDict l = .ok r → r = dictOps0 l := by
  induction l with
  | nil =>
    intro r h
    simp [scanDict] at h
    subst h
    rfl
  | cons p rest ih =>
    intro r h
    obtain ⟨k, v⟩ := p
    cases v with
    | opInst op =>
      simp only [scanDict] at h
      cases hr : scanDict rest with
      | error e => rw [hr] at h; exact absurd h (by simp)
      | ok l2 =>
        rw [hr] at h
        simp at h
        subst h
        simp [dictOps0, List.filterMap_cons]
        have := ih l2 hr
        simpa [dictOps0] using this
    | opClassRef => simp [scanDict] at h
    | otherVal =>
      simp only [scanDict] at h
      have := ih r h
      simpa [dictOps0, List.filterMap_cons] using this

theorem setattrD_self (l : List (String × DictVal)) (k : String)
    (v : DictVal) : alookup (setattrD l k v) k = some v := by
  induction l with
  | nil => simp [setattrD, alookup]
  | cons p rest ih =>
    obtain ⟨k0, v0⟩ := p
    by_cases hk : k0 = k
    · simp [setattrD, hk, alookup]
    · simp [setattrD, hk, alookup, ih]

theorem setattrD_ne (l : List (String × DictVal)) (k k2 : String)
    (v : DictVal) (h : k2 ≠ k) :
    alookup (setattrD l k v) k2 = alookup l k2 := by
  induction l with
  | nil => simp [setattrD, alookup, Ne.symm h]
  | cons p rest ih =>
    obtain ⟨k0, v0⟩ := p
    by_cases hk : k0 = k
    · subst hk
      simp [setattrD, alookup, Ne.symm h]
    · simp [setattrD, hk, alookup, ih]

theorem foldl_setattr_not_mem (l : List (String × Operation)) :
    ∀ (a : List (String × DictVal)) (n : String), n ∉ l.map Prod.fst →
      alookup (l.foldl (fun acc p => setattrD acc p.1 (.opInst p.2)) a) n =
        alookup a n := by
  induction l with
  | nil => intro a n _; rfl
  | cons p rest ih =>
    intro a n hn
    simp only [List.map_cons, List.mem_cons] at hn
    push_neg at hn
    simp only [List.foldl_cons]
    rw [ih _ n hn.2, setattrD_ne _ _ _ _ hn.1]

theorem foldl_setattr_mem (l : List (String × Operation)) :
    ∀ (a : List (String × DictVal)) (n : String) (op : Operation),
      (l.map Prod.fst).Nodup → (n, op) ∈ l →
      alookup (l.foldl (fun acc p => setattrD acc p.1 (.opInst p.2)) a) n =
        some (.opInst op) := by
  induction l with
  | nil =>
    intro a n op _ hmem
    simp at hmem
  | cons p rest ih =>
    intro a n op hnd hmem
    simp only [List.map_cons, List.nodup_cons] at hnd
    rcases List.mem_cons.mp hmem with heq | htail
    · subst heq
      simp only [List.foldl_cons]
      rw [foldl_setattr_not_mem rest _ n hnd.1]
      exact setattrD_self a n _
    · simp only [List.foldl_cons]
      exact ih _ n op hnd.2 htail

theorem popKey_of_alookup_none (m : FactoryMap) (k : String)
    (h : alookup m k = none) : popKey m k = (none, m) := by
  induction m with
  | nil => rfl
  | cons p rest ih =>
    obtain ⟨k0, f0⟩ := p
    by_cases hk : k0 = k
    · subst hk
      simp [alookup] at h
    · simp [alookup, hk] at h
      simp [popKey, hk, ih h]

theorem validateLoop_append (issub : Nat → Nat → Bool)
    (l1 l2 : List Operation) :
    ∀ m, validateLoop issub (l1 ++ l2) m =
      (match validateLoop issub l1 m with
        | (m2, none) => validateLoop issub l2 m2
        | (m2, some e) => (m2, some e)) := by
  induction l1 with
  | nil => intro m; simp [validateLoop]
  | cons d rest ih =>
    intro m
    simp only [List.cons_append, validateLoop]
    cases hp : processOp issub d m with
    | error e => simp
    | ok m2 => simp [ih m2]

theorem commaJoin_mem_split (l : List String) :
    ∀ e ∈ l, ∃ a b, commaJoin l = a ++ e ++ b := by
  induction l with
  | nil =>
    intro e he
    simp at he
  | cons s rest ih =>
    intro e he
    cases rest with
    | nil =>
      simp at he
      subst he
      exact ⟨"", "", by simp [commaJoin]⟩
    | cons s2 rest2 =>
      rcases List.mem_cons.mp he with heq | htail
      · subst heq
        refine ⟨"", ", " ++ commaJoin (s2 :: rest2), ?_⟩
        simp [commaJoin, String.append_assoc]
      · obtain ⟨a, b, hab⟩ := ih e htail
        refine ⟨s ++ ", " ++ a, b, ?_⟩
        simp only [commaJoin]
        rw [hab]
        simp [String.append_assoc]

theorem dupErrsGo_sub (ops : List (String × Operation)) :
    ∀ (seen : List (Option String)), ∀ p ∈ ops,
      ∀ e ∈ p.2.validation_errors, e ∈ dupErrsGo ops seen := by
  induction ops with
  | nil =>
    intro seen p hp
    simp at hp
  | cons q rest ih =>
    intro seen p hp e he
    obtain ⟨qk, op⟩ := q
    rcases List.mem_cons.mp hp with heq | htail
    · subst heq
      simp only [dupErrsGo, List.mem_append]
      exact Or.inl (Or.inr he)
    · simp only [dupErrsGo, List.mem_append]
      exact Or.inr (ih _ p htail e he)

theorem dupErrsGo_dup (ops : List (String × Operation)) :
    ∀ (seen : List (Option String)) (mn : Option String),
      2 ≤ ops.countP (fun p => p.2.method_name = mn) ∨
        (1 ≤ ops.countP (fun p => p.2.method_name = mn) ∧ mn ∈ seen) →
      dupMsg mn ∈ dupErrsGo ops seen := by
  induction ops with
  | nil =>
    intro seen mn h
    simp at h
  | cons q rest ih =>
    intro seen mn h
    obtain ⟨qk, op⟩ := q
    by_cases hmn : op.method_name = mn
    · by_cases hseen : mn ∈ seen
      · subst hmn
        simp only [dupErrsGo, List.mem_append]
        left
        left
        simp [List.contains, List.elem_eq_mem, hseen]
      · subst hmn
        simp only [dupErrsGo, List.mem_append]
        right
        apply ih
        rcases h with h2 | ⟨_, hs⟩
        · have hc : List.countP
              (fun p => decide (p.2.method_name = op.method_name))
              ((qk, op) :: rest) =
              List.countP
                (fun p => decide (p.2.method_name = op.method_name)) rest
                + 1 := by
            rw [List.countP_cons]
            simp
          rw [hc] at h2
          exact Or.inr ⟨by omega, by simp⟩
        · exact absurd hs hseen
    · simp only [dupErrsGo, List.mem_append]
      right
      apply ih
      have hc : List.countP (fun p => decide (p.2.method_name = mn))
          ((qk, op) :: rest) =
          List.countP (fun p => decide (p.2.method_name = mn)) rest := by
        rw [List.countP_cons]
        simp [hmn]
      rw [hc] at h
      rcases h with h2 | ⟨h1, hs⟩
      · exact Or.inl h2
      · exact Or.inr ⟨h1, List.mem_cons_of_mem _ hs⟩

theorem input_conflict_false_iff (issub : Nat → Nat → Bool)
    (m d : Operation) :
    input_type_conflict issub m d = false ↔
      (∀ mi di, m.input_type = some mi → d.input_type = some di →
        mi ≠ PyTy.any → di ≠ PyTy.any →
        (di = mi ∨ is_subtype issub di mi = true)) := by
  cases hmi : m.input_type with
  | none => simp [input_type_conflict, hmi]
  | some mi =>
    cases hdi : d.input_type with
    | none => simp [input_type_conflict, hmi, hdi]
    | some di =>
      have hblast : input_type_conflict issub m d = false ↔
          (mi = PyTy.any ∨ di = PyTy.any ∨ di = mi ∨
            is_subtype issub di mi = true) := by
        simp only [input_type_conflict, hmi, hdi]
        by_cases h1 : mi = PyTy.any <;> by_cases h2 : di = PyTy.any <;>
          by_cases h3 : di = mi <;>
          by_cases h4 : is_subtype issub di mi = true <;>
          simp [h1, h2, h3, h4]
      rw [hblast]
      constructor
      · intro h mi2 di2 h1 h2 hany1 hany2
        injection h1 with h1
        injection h2 with h2
        subst h1
        subst h2
        rcases h with h | h | h | h
        · exact absurd h hany1
        · exact absurd h hany2
        · exact Or.inl h
        · exact Or.inr h
      · intro h
        by_cases hany1 : mi = PyTy.any
        · exact Or.inl hany1
        · by_cases hany2 : di = PyTy.any
          · exact Or.inr (Or.inl hany2)
          · rcases h mi di rfl rfl hany1 hany2 with heq | hsub
            · exact Or.inr (Or.inr (Or.inl heq))
            · exact Or.inr (Or.inr (Or.inr hsub))

theorem output_conflict_false_iff (issub : Nat → Nat → Bool)
    (m d : Operation) :
    output_type_conflict issub m d = false ↔
      (∀ mo dv, m.output_type = some mo → d.output_type = some dv →
        mo ≠ PyTy.any → dv ≠ PyTy.any → is_subtype issub mo dv = true) := by
  cases hmo : m.output_type with
  | none => simp [output_type_conflict, hmo]
  | some mo =>
    cases hdv : d.output_type with
    | none => simp [output_type_conflict, hmo, hdv]
    | some dv =>
      have hblast : output_type_conflict issub m d = false ↔
          (mo = PyTy.any ∨ dv = PyTy.any ∨
            is_subtype issub mo dv = true) := by
        simp only [output_type_conflict, hmo, hdv]
        by_cases h1 : mo = PyTy.any <;> by_cases h2 : dv = PyTy.any <;>
          by_cases h3 : is_subtype issub mo dv = true <;>
          simp [h1, h2, h3]
      rw [hblast]
      constructor
      · intro h mo2 dv2 h1 h2 hany1 hany2
        injection h1 with h1
        injection h2 with h2
        subst h1
        subst h2
        rcases h with h | h | h
        · exact absurd h hany1
        · exact absurd h hany2
        · exact h
      · intro h
        by_cases hany1 : mo = PyTy.any
        · exact Or.inl hany1
        · by_cases hany2 : dv = PyTy.any
          · exact Or.inr (Or.inl hany2)
          · exact Or.inr (Or.inr (h mo dv rfl rfl hany1 hany2))

/-! Claim theorems. -/

/-- Claim C1: in handler-to-definition validation, for an operation of the
definition matched to a handler factory (factory found, descriptor
attached, name check passed), the type checks pass exactly when: whenever
both input types are set and neither is the universal type, the definition
input type is identical to or is_subtype of the handler input type
(contravariance), and whenever both output types are set and neither is
universal, the handler output type is is_subtype of the definition output
type (covariance); a universal type on either side makes that comparison
pass unconditionally (the quantified hypotheses are then vacuous), and any
violation fails with a TypeMismatchError. -/
theorem C1_variance_validation (issub : Nat → Nat → Bool) (d_op : Operation)
    (m m2 : FactoryMap) (mn : String) (f : Factory) (opd : Operation)
    (hmn : d_op.method_name = some mn) (hne : mn ≠ "")
    (hpop : popKey m mn = (some f, m2))
    (hod : f.op_defn = some opd)
    (hname : opd.method_name = some opd.name ∨ opd.name = d_op.name) :
    (processOp issub d_op m = .ok m2 ↔
      ((∀ mi di, opd.input_type = some mi → d_op.input_type = some di →
          mi ≠ PyTy.any → di ≠ PyTy.any →
          (di = mi ∨ is_subtype issub di mi = true)) ∧
       (∀ mo dv, opd.output_type = some mo → d_op.output_type = some dv →
          mo ≠ PyTy.any → dv ≠ PyTy.any →
          is_subtype issub mo dv = true))) ∧
    (processOp issub d_op m = .ok m2 ∨
      ∃ msg, processOp issub d_op m = .error (.typeMismatchError msg)) := by
  have hfal : optFalsy d_op.method_name = false := by
    rw [hmn]
    simp [optFalsy, hne]
  have hget : d_op.method_name.getD "" = mn := by rw [hmn]; rfl
  have hnb : ((opd.method_name = some opd.name : Bool) ||
      (opd.name = d_op.name : Bool)) = true := by
    rcases hname with h | h <;> simp [h]
  have hproc : processOp issub d_op m =
      (if input_type_conflict issub opd d_op then
        .error (.typeMismatchError
          ("Operation " ++ mn ++ " has an input type which is not " ++
           "compatible with the input type in the interface. The input " ++
           "type must be the same as or a superclass of the operation " ++
           "definition input type."))
      else if output_type_conflict issub opd d_op then
        .error (.typeMismatchError
          ("Operation " ++ mn ++ " has an output type which is not " ++
           "compatible with the output type in the interface. The " ++
           "output type must be the same as or a subclass of the " ++
           "operation definition output type."))
      else .ok m2) := by
    rw [processOp, hfal]
    simp only [Bool.false_eq_true, if_false, hget, hpop, hod, hnb,
      Bool.not_true, Bool.false_eq_true, if_false]
  constructor
  · rw [hproc]
    by_cases hin : input_type_conflict issub opd d_op
    · simp only [if_pos hin]
      constructor
      · intro h
        exact absurd h (by simp)
      · intro ⟨h1, _⟩
        have := (input_conflict_false_iff issub opd d_op).mpr h1
        rw [this] at hin
        simp at hin
    · by_cases hout : output_type_conflict issub opd d_op
      · simp only [if_neg hin, if_pos hout]
        constructor
        · intro h
          exact absurd h (by simp)
        · intro ⟨_, h2⟩
          have := (output_conflict_false_iff issub opd d_op).mpr h2
          rw [this] at hout
          simp at hout
      · simp only [if_neg hin, if_neg hout, true_iff]
        constructor
        · exact (input_conflict_false_iff issub opd d_op).mp
            (Bool.not_eq_true _ ▸ (by simpa using hin))
        · exact (output_conflict_false_iff issub opd d_op).mp
            (Bool.not_eq_true _ ▸ (by simpa using hout))
  · rw [hproc]
    by_cases hin : input_type_conflict issub opd d_op
    · refine Or.inr ⟨"Operation " ++ mn ++ " has an input type which is not " ++
        "compatible with the input type in the interface. The input " ++
        "type must be the same as or a superclass of the operation " ++
        "definition input type.", ?_⟩
      rw [if_pos hin]
    · by_cases hout : output_type_conflict issub opd d_op
      · refine Or.inr ⟨"Operation " ++ mn ++ " has an output type which is not " ++
          "compatible with the output type in the interface. The " ++
          "output type must be the same as or a subclass of the " ++
          "operation definition output type.", ?_⟩
        rw [if_neg hin, if_pos hout]
      · exact Or.inl (by rw [if_neg hin, if_neg hout])

/-- Witness for C1 at a concrete hierarchy: class 1 is a subclass of
class 0, the handler accepts class 0 and returns class 1, the definition
declares input class 1 and output class 1, so both variance checks pass. -/
theorem C1_variance_validation_witness :
    processOp (fun a b => a = 1 && b = 0)
      ⟨"op", some "op", some (.cls 1), some (.cls 1)⟩
      [("op", ⟨some ⟨"op", some "op", some (.cls 0), some (.cls 1)⟩⟩)] =
      .ok [] ∧
    (∀ mi di,
      (Operation.mk "op" (some "op") (some (.cls 0)) (some (.cls 1))).input_type
        = some mi →
      (Operation.mk "op" (some "op") (some (.cls 1)) (some (.cls 1))).input_type
        = some di →
      mi ≠ PyTy.any → di ≠ PyTy.any →
      (di = mi ∨ is_subtype (fun a b => a = 1 && b = 0) di mi = true)) := by
  have h := C1_variance_validation (fun a b => a = 1 && b = 0)
    ⟨"op", some "op", some (.cls 1), some (.cls 1)⟩
    [("op", ⟨some ⟨"op", some "op", some (.cls 0), some (.cls 1)⟩⟩)] []
    "op" ⟨some ⟨"op", some "op", some (.cls 0), some (.cls 1)⟩⟩
    ⟨"op", some "op", some (.cls 0), some (.cls 1)⟩
    rfl (by decide) (by decide) rfl (Or.inl rfl)
  refine ⟨h.1.mpr ⟨?_, ?_⟩, ?_⟩
  · intro mi di h1 h2 _ _
    injection h1 with h1
    injection h2 with h2
    subst h1
    subst h2
    exact Or.inr (by decide)
  · intro mo dv h1 h2 _ _
    injection h1 with h1
    injection h2 with h2
    subst h1
    subst h2
    decide
  · intro mi di h1 h2 _ _
    injection h1 with h1
    injection h2 with h2
    subst h1
    subst h2
    exact Or.inr (by decide)

/-- Claim C5: validating a handler map against a service definition fails
with a MissingImplementationError when the operation reached next by the
loop has no factory under its method name in the remaining working map, and
fails with a ConfigurationError (implements more operations than the
interface) when the loop finishes with unmatched factories left over. -/
theorem C5_missing_and_extra (issub : Nat → Nat → Bool)
    (defn : ServiceDefinition) (um m2 : FactoryMap) :
    (∀ pre d post, defn.operations.map Prod.snd = pre ++ d :: post →
      validateLoop issub pre um = (m2, none) →
      optFalsy d.method_name = false →
      alookup m2 (d.method_name.getD "") = none →
      ∃ msg, validate_operation_handler_methods issub um defn =
        some (.missingImplementationError msg)) ∧
    (validateLoop issub (defn.operations.map Prod.snd) um = (m2, none) →
      m2 ≠ [] →
      validate_operation_handler_methods issub um defn =
        some (extraOpsError m2)) := by
  constructor
  · intro pre d post hops hloop hmnf hlk
    refine ⟨"Service does not implement an operation with method name " ++
      d.method_name.getD "" ++
      ". But this operation is in the service definition.", ?_⟩
    rw [validate_operation_handler_methods, hops, validateLoop_append, hloop]
    have hproc : processOp issub d m2 =
        .error (.missingImplementationError
          ("Service does not implement an operation with method name " ++
           d.method_name.getD "" ++
           ". But this operation is in the service definition.")) := by
      rw [processOp, hmnf]
      simp only [Bool.false_eq_true, if_false]
      rw [popKey_of_alookup_none _ _ hlk]
    simp [validateLoop, hproc]
  · intro hloop hne
    rw [validate_operation_handler_methods, hloop]
    have : m2.isEmpty = false := by
      cases m2 with
      | nil => exact absurd rfl hne
      | cons p rest => rfl
    simp [this]

/-- Witness for C5: a definition with operations a and b against a handler
map implementing only a (missing implementation), and a definition with
only a against a map with a and an extra c (extra operations). -/
theorem C5_missing_and_extra_witness :
    (∃ msg, validate_operation_handler_methods (fun _ _ => false)
      [("a", ⟨some ⟨"a", some "a", none, none⟩⟩)]
      ⟨"S", [("a", ⟨"a", some "a", none, none⟩),
             ("b", ⟨"b", some "b", none, none⟩)]⟩ =
      some (.missingImplementationError msg)) ∧
    validate_operation_handler_methods (fun _ _ => false)
      [("a", ⟨some ⟨"a", some "a", none, none⟩⟩),
       ("c", ⟨some ⟨"c", some "c", none, none⟩⟩)]
      ⟨"S", [("a", ⟨"a", some "a", none, none⟩)]⟩ =
      some (extraOpsError [("c", ⟨some ⟨"c", some "c", none, none⟩⟩)]) := by
  constructor
  · exact (C5_missing_and_extra (fun _ _ => false)
      ⟨"S", [("a", ⟨"a", some "a", none, none⟩),
             ("b", ⟨"b", some "b", none, none⟩)]⟩
      [("a", ⟨some ⟨"a", some "a", none, none⟩⟩)] []).1
      [⟨"a", some "a", none, none⟩] ⟨"b", some "b", none, none⟩ []
      (by decide) (by decide) (by decide) (by decide)
  · exact (C5_missing_and_extra (fun _ _ => false)
      ⟨"S", [("a", ⟨"a", some "a", none, none⟩)]⟩
      [("a", ⟨some ⟨"a", some "a", none, none⟩⟩),
       ("c", ⟨some ⟨"c", some "c", none, none⟩⟩)]
      [("c", ⟨some ⟨"c", some "c", none, none⟩⟩)]).2
      (by decide) (by decide)

/-- Claim C6: constructing the synchronous-only operation handler from a
non-async callable fails with a ConfigurationError; a successfully
constructed handler raises UnsupportedOperationError on every fetch_info,
fetch_result and cancel call, and start returns a Sync result wrapping the
awaited value of the supplied function. -/
theorem C6_sync_only_handler {I O : Type} (f : AsyncFn I O) :
    (f.is_async = false → ∃ msg, SyncOperationHandler.make f =
      .error (.configurationError msg)) ∧
    (f.is_async = true → ∃ hd, SyncOperationHandler.make f = .ok hd ∧
      (∀ ctx input, hd.start ctx input = ⟨f.run ctx input⟩) ∧
      (∀ ctx tok, ∃ m, hd.fetch_info ctx tok =
        .error (.unsupportedOperationError m)) ∧
      (∀ ctx tok, ∃ m, hd.fetch_result ctx tok =
        .error (.unsupportedOperationError m)) ∧
      (∀ ctx tok, ∃ m, hd.cancel ctx tok =
        .error (.unsupportedOperationError m))) := by
  constructor
  · intro h
    refine ⟨"is not an async def method. SyncOperationHandler must be " ++
      "initialized with an async def method.", ?_⟩
    simp [SyncOperationHandler.make, h]
  · intro h
    refine ⟨⟨f.run⟩, by simp [SyncOperationHandler.make, h], ?_, ?_, ?_, ?_⟩
    · intro ctx input
      rfl
    · intro ctx tok
      exact ⟨_, rfl⟩
    · intro ctx tok
      exact ⟨_, rfl⟩
    · intro ctx tok
      exact ⟨_, rfl⟩

/-- Witness for C6: a non-async function fails construction; an async
successor function constructs, starts with a Sync-wrapped value, and all
three lifecycle methods are unreachable. -/
theorem C6_sync_only_handler_witness :
    (∃ msg, SyncOperationHandler.make (AsyncFn.mk false (fun _ (n : Nat) => n))
      = .error (.configurationError msg)) ∧
    (∃ hd, SyncOperationHandler.make
        (AsyncFn.mk true (fun _ (n : Nat) => n + 1)) = .ok hd ∧
      hd.start ⟨[]⟩ 4 = ⟨5⟩ ∧
      (∃ m, hd.fetch_info ⟨[]⟩ "t" = .error (.unsupportedOperationError m)) ∧
      (∃ m, hd.fetch_result ⟨[]⟩ "t" =
        .error (.unsupportedOperationError m)) ∧
      (∃ m, hd.cancel ⟨[]⟩ "t" = .error (.unsupportedOperationError m))) := by
  constructor
  · exact (C6_sync_only_handler (AsyncFn.mk false (fun _ (n : Nat) => n))).1
      rfl
  · obtain ⟨hd, hmk, hstart, hinfo, hres, hcan⟩ :=
      (C6_sync_only_handler (AsyncFn.mk true (fun _ (n : Nat) => n + 1))).2
        rfl
    exact ⟨hd, hmk, hstart ⟨[]⟩ 4, hinfo ⟨[]⟩ "t", hres ⟨[]⟩ "t",
      hcan ⟨[]⟩ "t"⟩

/-- Claim C7: finalizing a ServiceDefinition runs the aggregate validator:
construction succeeds exactly when the collected error list is empty;
otherwise it raises a single DefinitionError whose message joins all of the
collected problems, which include the empty-service-name error, the
duplicate-method-name error for any method name occurring at least twice,
and every error of every operation self-check; every collected problem
appears inside the single message. -/
theorem C7_aggregate_validator (name : String)
    (ops : List (String × Operation)) :
    (mkServiceDefinition name ops = .ok ⟨name, ops⟩ ↔
      ServiceDefinition.validation_errors_of name ops = []) ∧
    (ServiceDefinition.validation_errors_of name ops ≠ [] →
      mkServiceDefinition name ops = .error (.definitionError
        ("Service definition " ++ name ++ " has validation errors: " ++
          commaJoin (ServiceDefinition.validation_errors_of name ops)))) ∧
    (name = "" →
      "Service has no name" ∈
        ServiceDefinition.validation_errors_of name ops) ∧
    (∀ p ∈ ops, ∀ e ∈ p.2.validation_errors,
      e ∈ ServiceDefinition.validation_errors_of name ops) ∧
    (∀ mn, 2 ≤ ops.countP (fun p => p.2.method_name = mn) →
      dupMsg mn ∈ ServiceDefinition.validation_errors_of name ops) ∧
    (∀ e ∈ ServiceDefinition.validation_errors_of name ops, ∃ a b,
      "Service definition " ++ name ++ " has validation errors: " ++
        commaJoin (ServiceDefinition.validation_errors_of name ops) =
        a ++ e ++ b) := by
  refine ⟨?_, ?_, ?_, ?_, ?_, ?_⟩
  · cases herr : ServiceDefinition.validation_errors_of name ops with
    | nil => simp [mkServiceDefinition, herr]
    | cons e es => simp [mkServiceDefinition, herr]
  · intro hne
    cases herr : ServiceDefinition.validation_errors_of name ops with
    | nil => exact absurd herr hne
    | cons e es => simp [mkServiceDefinition, herr]
  · intro hname
    simp [ServiceDefinition.validation_errors_of, hname]
  · intro p hp e he
    rw [ServiceDefinition.validation_errors_of]
    exact List.mem_append_right _ (dupErrsGo_sub ops [] p hp e he)
  · intro mn hc
    rw [ServiceDefinition.validation_errors_of]
    exact List.mem_append_right _ (dupErrsGo_dup ops [] mn (Or.inl hc))
  · intro e he
    obtain ⟨a, b, hab⟩ := commaJoin_mem_split _ e he
    refine ⟨"Service definition " ++ name ++
      " has validation errors: " ++ a, b, ?_⟩
    rw [hab]
    simp [String.append_assoc]

/-- Witness for C7: the empty service name with one operation missing its
method name and both types produces four aggregated errors and a single
joined DefinitionError message. -/
theorem C7_aggregate_validator_witness :
    "Service has no name" ∈
      ServiceDefinition.validation_errors_of "" [("a", ⟨"a", none, none, none⟩)] ∧
    mkServiceDefinition "" [("a", ⟨"a", none, none, none⟩)] =
      .error (.definitionError
        ("Service definition " ++ "" ++ " has validation errors: " ++
          commaJoin (ServiceDefinition.validation_errors_of ""
            [("a", ⟨"a", none, none, none⟩)]))) ∧
    (∃ a b,
      "Service definition " ++ "" ++ " has validation errors: " ++
        commaJoin (ServiceDefinition.validation_errors_of ""
          [("a", ⟨"a", none, none, none⟩)]) =
        a ++ "Operation a has no method name" ++ b) := by
  refine ⟨(C7_aggregate_validator "" [("a", ⟨"a", none, none, none⟩)]).2.2.1
      rfl,
    (C7_aggregate_validator "" [("a", ⟨"a", none, none, none⟩)]).2.1
      (by decide), ?_⟩
  exact (C7_aggregate_validator "" [("a", ⟨"a", none, none, none⟩)]).2.2.2.2.2
    "Operation a has no method name" (by decide)

/-- Claim C9: the service-definition lookup primitive reads only the own
class __dict__: for every class whose own dict carries no
__nexus_service__ binding it returns None, regardless of what ordinary
inherited attribute lookup over the method resolution order would find. -/
theorem C9_lookup_ignores_inheritance (c : PyClassObj)
    (h : c.own_nexus = none) : get_service_definition c = .ok none := by
  rw [get_service_definition, h]

/-- Witness for C9: a non-decorated subclass of a decorated class; getattr
over the mro finds the parent definition but the lookup primitive returns
None. -/
theorem C9_lookup_ignores_inheritance_witness :
    (PyClassObj.mk none [some (.svcDefn ⟨"P", []⟩)]).own_nexus = none ∧
    get_service_definition
      (PyClassObj.mk none [some (.svcDefn ⟨"P", []⟩)]) = .ok none ∧
    getattrNexus (PyClassObj.mk none [some (.svcDefn ⟨"P", []⟩)]) =
      some (.svcDefn ⟨"P", []⟩) :=
  ⟨rfl, C9_lookup_ignores_inheritance _ rfl, rfl⟩

theorem readD_append_lt (s t : Store) (hd : Nat) (h : hd < s.length) :
    readD (s ++ t) hd = readD s hd := by
  induction s generalizing hd with
  | nil => simp at h
  | cons m rest ih =>
    cases hd with
    | zero => rfl
    | succ n =>
      simp only [List.length_cons] at h
      exact ih n (by omega)

theorem readD_writeD_ne (s : Store) (i hd : Nat) (v : FactoryMap)
    (h : hd ≠ i) : readD (writeD s i v) hd = readD s hd := by
  induction s generalizing i hd with
  | nil => rfl
  | cons m rest ih =>
    cases i with
    | zero =>
      cases hd with
      | zero => exact absurd rfl h
      | succ n => rfl
    | succ j =>
      cases hd with
      | zero => rfl
      | succ n => exact ih j n (by omega)

/-- Claim C10: validating handler methods against a service definition
never mutates the dict object passed in by the caller: whatever the
validation outcome, the caller handle reads the same after the call as
before it, because the validator pops only from the copy it allocates. -/
theorem C10_caller_map_preserved (issub : Nat → Nat → Bool) (s : Store)
    (hd : Nat) (defn : ServiceDefinition) (h : hd < s.length) :
    readD (validate_st issub s hd defn).1 hd = readD s hd := by
  have hfst : (validate_st issub s hd defn).1 =
      writeD (s ++ [readD s hd]) s.length
        (validateLoop issub (defn.operations.map Prod.snd)
          (readD (s ++ [readD s hd]) s.length)).1 := by
    rw [validate_st]
    cases hpr : (validateLoop issub (defn.operations.map Prod.snd)
        (readD (s ++ [readD s hd]) s.length)).2 with
    | none =>
      by_cases he : (validateLoop issub (defn.operations.map Prod.snd)
          (readD (s ++ [readD s hd]) s.length)).1.isEmpty
      <;> simp [hpr, he]
    | some e => simp [hpr]
  rw [hfst, readD_writeD_ne _ _ _ _ (by omega), readD_append_lt _ _ _ h]

/-- Witness for C10: a one-dict store validated against a one-operation
definition; the caller dict is unchanged. -/
theorem C10_caller_map_preserved_witness :
    (0 : Nat) < ([[("a", Factory.mk (some ⟨"a", some "a", none, none⟩))]] :
      Store).length ∧
    readD (validate_st (fun _ _ => false)
        [[("a", ⟨some ⟨"a", some "a", none, none⟩⟩)]] 0
        ⟨"S", [("a", ⟨"a", some "a", none, none⟩)]⟩).1 0 =
      readD [[("a", ⟨some ⟨"a", some "a", none, none⟩⟩)]] 0 :=
  ⟨by decide,
    C10_caller_map_preserved (fun _ _ => false)
      [[("a", ⟨some ⟨"a", some "a", none, none⟩⟩)]] 0
      ⟨"S", [("a", ⟨"a", some "a", none, none⟩)]⟩ (by decide)⟩

theorem mkServiceDefinition_ok (name : String)
    (ops : List (String × Operation)) (d : ServiceDefinition)
    (h : mkServiceDefinition name ops = .ok d) : d = ⟨name, ops⟩ := by
  simp only [mkServiceDefinition] at h
  cases herr : ServiceDefinition.validation_errors_of name ops with
  | nil =>
    rw [herr] at h
    simp at h
    exact h.symm
  | cons e es =>
    rw [herr] at h
    simp at h

theorem collect_nodup (uc : UserClass) (own : List (String × Operation))
    (h : collect_operations uc = .ok own) : (own.map Prod.fst).Nodup := by
  simp only [collect_operations] at h
  cases hs : scanDict uc.dict_entries with
  | error e =>
    simp only [hs] at h
    simp at h
  | ok dops =>
    simp only [hs] at h
    cases hp : processAll (keyData dops (opAnnList uc)) with
    | error e =>
      simp only [hp] at h
      simp at h
    | ok procd =>
      simp only [hp] at h
      exact opsByNameGo_nodup procd [] own h (by simp)

theorem from_class_nodup (uc : UserClass) (nm : String)
    (defn : ServiceDefinition)
    (h : ServiceDefinition.from_class uc nm = .ok defn) :
    (defn.operations.map Prod.fst).Nodup := by
  simp only [ServiceDefinition.from_class] at h
  cases hcol : collect_operations uc with
  | error e =>
    simp only [hcol] at h
    simp at h
  | ok own =>
    simp only [hcol] at h
    have hownnd : (own.map Prod.fst).Nodup := collect_nodup uc own hcol
    cases hfp : firstParentDefn uc.mro_defns with
    | none =>
      simp only [hfp] at h
      have hd := mkServiceDefinition_ok nm own defn h
      subst hd
      exact hownnd
    | some pd =>
      simp only [hfp] at h
      cases hm : mergeGo (ownMethodNames own) own pd.operations with
      | error e =>
        simp only [hm] at h
        simp at h
      | ok merged =>
        simp only [hm] at h
        have hd := mkServiceDefinition_ok nm merged defn h
        subst hd
        exact mergeGo_nodup pd.operations (ownMethodNames own) own merged
          hm hownnd

/-- Claim C2: when building a ServiceDefinition, only the nearest ancestor
carrying a definition contributes inherited operations, under a strict
no-override rule: a parent operation whose method name occurs among the own
method names, or whose name is already bound among the own operations,
makes building fail with a DefinitionError; and when building succeeds the
built definition contains every own operation and every inherited parent
operation unchanged. -/
theorem C2_inheritance_merge (uc : UserClass) (nm : String)
    (own : List (String × Operation)) (pd : ServiceDefinition)
    (hcol : collect_operations uc = .ok own)
    (hpar : firstParentDefn uc.mro_defns = some pd) :
    ((∃ p ∈ pd.operations,
        (∃ m, p.2.method_name = some m ∧ m ∈ ownMethodNames own) ∨
        (alookup own p.2.name).isSome) →
      ∃ msg, ServiceDefinition.from_class uc nm =
        .error (.definitionError msg)) ∧
    (∀ defn, ServiceDefinition.from_class uc nm = .ok defn →
      (∀ k op, alookup own k = some op →
        alookup defn.operations k = some op) ∧
      (∀ p ∈ pd.operations,
        alookup defn.operations p.2.name = some p.2)) := by
  constructor
  · intro hex
    obtain ⟨msg, hmsg⟩ := mergeGo_error_of_collision pd.operations
      (ownMethodNames own) own hex
    refine ⟨msg, ?_⟩
    simp only [ServiceDefinition.from_class, hcol, hpar, hmsg]
  · intro defn hok
    simp only [ServiceDefinition.from_class, hcol, hpar] at hok
    cases hm : mergeGo (ownMethodNames own) own pd.operations with
    | error e =>
      simp only [hm] at hok
      simp at hok
    | ok merged =>
      simp only [hm] at hok
      have hdefn := mkServiceDefinition_ok nm merged defn hok
      obtain ⟨hpre, hmem⟩ := mergeGo_props pd.operations (ownMethodNames own)
        own merged hm
      subst hdefn
      exact ⟨fun k op hko => hpre k op hko, fun p hp => hmem p hp⟩

/-- Witness for C2: a child declaring c_op inheriting p_op from a decorated
parent succeeds and exposes both operations; a child whose own operation
reuses the parent method name p_op fails with a DefinitionError. -/
theorem C2_inheritance_merge_witness :
    ServiceDefinition.from_class
      ⟨"C", [], [("c_op", .opGeneric [.cls 0, .cls 0])],
        [some ⟨"P", [("p_op",
          ⟨"p_op", some "p_op", some (.cls 0), some (.cls 0)⟩)]⟩]⟩ "C" =
      .ok ⟨"C", [("c_op", ⟨"c_op", some "c_op", some (.cls 0), some (.cls 0)⟩),
        ("p_op", ⟨"p_op", some "p_op", some (.cls 0), some (.cls 0)⟩)]⟩ ∧
    alookup [("c_op", ⟨"c_op", some "c_op", some (.cls 0), some (.cls 0)⟩),
        ("p_op",
          (⟨"p_op", some "p_op", some (.cls 0), some (.cls 0)⟩ : Operation))]
      "p_op" = some ⟨"p_op", some "p_op", some (.cls 0), some (.cls 0)⟩ ∧
    (∃ msg, ServiceDefinition.from_class
      ⟨"C2", [], [("p_op", .opGeneric [.cls 0, .cls 0])],
        [some ⟨"P", [("p_op",
          ⟨"p_op", some "p_op", some (.cls 0), some (.cls 0)⟩)]⟩]⟩ "C2" =
      .error (.definitionError msg)) := by
  refine ⟨by decide, ?_, ?_⟩
  · exact ((C2_inheritance_merge
      ⟨"C", [], [("c_op", .opGeneric [.cls 0, .cls 0])],
        [some ⟨"P", [("p_op",
          ⟨"p_op", some "p_op", some (.cls 0), some (.cls 0)⟩)]⟩]⟩ "C"
      [("c_op", ⟨"c_op", some "c_op", some (.cls 0), some (.cls 0)⟩)]
      ⟨"P", [("p_op", ⟨"p_op", some "p_op", some (.cls 0), some (.cls 0)⟩)]⟩
      (by decide) (by decide)).2
      ⟨"C", [("c_op", ⟨"c_op", some "c_op", some (.cls 0), some (.cls 0)⟩),
        ("p_op", ⟨"p_op", some "p_op", some (.cls 0), some (.cls 0)⟩)]⟩
      (by decide)).2
      ("p_op", ⟨"p_op", some "p_op", some (.cls 0), some (.cls 0)⟩)
      (by decide)
  · exact (C2_inheritance_merge
      ⟨"C2", [], [("p_op", .opGeneric [.cls 0, .cls 0])],
        [some ⟨"P", [("p_op",
          ⟨"p_op", some "p_op", some (.cls 0), some (.cls 0)⟩)]⟩]⟩ "C2"
      [("p_op", ⟨"p_op", some "p_op", some (.cls 0), some (.cls 0)⟩)]
      ⟨"P", [("p_op", ⟨"p_op", some "p_op", some (.cls 0), some (.cls 0)⟩)]⟩
      (by decide) (by decide)).1 (by decide)

theorem collect_annOnly (uc : UserClass) (own : List (String × Operation))
    (k : String) (i o : PyTy)
    (hcol : collect_operations uc = .ok own)
    (hann : alookup (opAnnList uc) k = some [i, o])
    (hdict : alookup (dictOps0 uc.dict_entries) k = none) :
    alookup own k = some ⟨k, some k, some i, some o⟩ := by
  simp only [collect_operations] at hcol
  cases hs : scanDict uc.dict_entries with
  | error e =>
    simp only [hs] at hcol
    simp at hcol
  | ok dops =>
    simp only [hs] at hcol
    have hdops : dops = dictOps0 uc.dict_entries := scanDict_ok _ _ hs
    subst hdops
    cases hp : processAll (keyData (dictOps0 uc.dict_entries)
        (opAnnList uc)) with
    | error e =>
      simp only [hp] at hcol
      simp at hcol
    | ok procd =>
      simp only [hp] at hcol
      have hmemAnn : (k, [i, o]) ∈ opAnnList uc := alookup_mem hann
      have hkd : (k, KeySrc.annOnly [i, o]) ∈
          keyData (dictOps0 uc.dict_entries) (opAnnList uc) := by
        rw [keyData]
        apply List.mem_append_right
        apply List.mem_map.mpr
        refine ⟨(k, [i, o]), ?_, rfl⟩
        apply List.mem_filter.mpr
        exact ⟨hmemAnn, by simp [hdict]⟩
      obtain ⟨op2, hop2, hopmem⟩ := processAll_mem _ procd hp
        (k, .annOnly [i, o]) hkd
      have hop2v : op2 = ⟨k, some k, some i, some o⟩ := by
        simp only [processKey] at hop2
        injection hop2 with hop2
        exact hop2.symm
      subst hop2v
      have := (opsByNameGo_props procd [] own hcol).2 _ hopmem
      simpa using this

/-- Claim C3: a service class member declared only by a type annotation
Operation[I, O] (no assigned Operation instance) yields, in the built
definition, an Operation whose name and method_name equal the field name
and whose input and output types equal I and O. -/
theorem C3_annotation_only_operation (uc : UserClass) (nm : String)
    (defn : ServiceDefinition) (k : String) (i o : PyTy)
    (hfc : ServiceDefinition.from_class uc nm = .ok defn)
    (hann : alookup (opAnnList uc) k = some [i, o])
    (hdict : alookup (dictOps0 uc.dict_entries) k = none) :
    alookup defn.operations k = some ⟨k, some k, some i, some o⟩ := by
  simp only [ServiceDefinition.from_class] at hfc
  cases hcol : collect_operations uc with
  | error e =>
    simp only [hcol] at hfc
    simp at hfc
  | ok own =>
    simp only [hcol] at hfc
    have hown := collect_annOnly uc own k i o hcol hann hdict
    cases hfp : firstParentDefn uc.mro_defns with
    | none =>
      simp only [hfp] at hfc
      have hdefn := mkServiceDefinition_ok nm own defn hfc
      subst hdefn
      exact hown
    | some pd =>
      simp only [hfp] at hfc
      cases hm : mergeGo (ownMethodNames own) own pd.operations with
      | error e =>
        simp only [hm] at hfc
        simp at hfc
      | ok merged =>
        simp only [hm] at hfc
        have hdefn := mkServiceDefinition_ok nm merged defn hfc
        subst hdefn
        exact (mergeGo_props pd.operations (ownMethodNames own) own merged
          hm).1 k _ hown

/-- Witness for C3: a class declaring greet by annotation only builds a
definition whose greet operation has method_name greet and the annotated
types. -/
theorem C3_annotation_only_operation_witness :
    ServiceDefinition.from_class
      ⟨"S", [], [("greet", .opGeneric [.cls 0, .cls 1])], []⟩ "S" =
      .ok ⟨"S", [("greet",
        ⟨"greet", some "greet", some (.cls 0), some (.cls 1)⟩)]⟩ ∧
    alookup (ServiceDefinition.mk "S" [("greet",
        ⟨"greet", some "greet", some (.cls 0), some (.cls 1)⟩)]).operations
      "greet" = some ⟨"greet", some "greet", some (.cls 0), some (.cls 1)⟩ :=
  ⟨by decide,
    C3_annotation_only_operation
      ⟨"S", [], [("greet", .opGeneric [.cls 0, .cls 1])], []⟩ "S"
      ⟨"S", [("greet", ⟨"greet", some "greet", some (.cls 0), some (.cls 1)⟩)]⟩
      "greet" (.cls 0) (.cls 1) (by decide) (by decide) (by decide)⟩

theorem keyData_mem_inst (dops : List (String × Operation))
    (annsL : List (String × List PyTy)) (k : String) (op : Operation)
    (h : (k, op) ∈ dops) :
    (match alookup annsL k with
      | some args => (k, KeySrc.both op args)
      | none => (k, KeySrc.instOnly op)) ∈ keyData dops annsL := by
  rw [keyData]
  apply List.mem_append_left
  induction dops with
  | nil => simp at h
  | cons q rest ih =>
    rcases List.mem_cons.mp h with heq | ht
    · subst heq
      simp only [List.map_cons]
      exact List.mem_cons_self _ _
    · simp only [List.map_cons]
      exact List.mem_cons_of_mem _ (ih ht)

theorem enrichInput_ok (op op1 : Operation) (i : PyTy)
    (h : enrichInput op i = .ok op1) :
    op1.name = op.name ∧ op1.method_name = op.method_name := by
  simp only [enrichInput] at h
  cases hi : op.input_type with
  | none =>
    simp only [hi] at h
    simp at h
    subst h
    exact ⟨rfl, rfl⟩
  | some t =>
    simp only [hi] at h
    by_cases ht : t = i
    · rw [if_pos ht] at h
      injection h with h
      subst h
      exact ⟨rfl, rfl⟩
    · rw [if_neg ht] at h
      exact absurd h (by simp)

theorem enrichOutput_ok (op op1 : Operation) (o : PyTy)
    (h : enrichOutput op o = .ok op1) :
    op1.name = op.name ∧ op1.method_name = op.method_name := by
  simp only [enrichOutput] at h
  cases ho : op.output_type with
  | none =>
    simp only [ho] at h
    simp at h
    subst h
    exact ⟨rfl, rfl⟩
  | some t =>
    simp only [ho] at h
    by_cases ht : t = o
    · rw [if_pos ht] at h
      injection h with h
      subst h
      exact ⟨rfl, rfl⟩
    · rw [if_neg ht] at h
      exact absurd h (by simp)

theorem defaultMn_none (k : String) (op : Operation)
    (h : op.method_name = none) :
    (defaultMn k op).method_name = some k ∧
      (defaultMn k op).name = op.name := by
  simp [defaultMn, h]

/-- Counterexample for claim C4: the field foo both carries the annotation
Operation[cls 0, cls 1] and the assigned instance Operation(name x,
method_name bar); bar differs from the field name foo, yet building the
service definition succeeds (the equality check of _service.py lines
291-296 runs only in the branch without a type annotation), producing the
operation with method_name bar. -/
theorem C4_counterexample :
    ServiceDefinition.from_class
      ⟨"S", [("foo", .opInst ⟨"x", some "bar", none, none⟩)],
        [("foo", .opGeneric [.cls 0, .cls 1])], []⟩ "S" =
      .ok ⟨"S", [("x", ⟨"x", some "bar", some (.cls 0), some (.cls 1)⟩)]⟩ := by
  decide

/-- Claim C4 as amended: during service-definition building, a discovered
operation field whose instance has no method name set (None) receives the
field name as method name; a discovered field WITHOUT an Operation type
annotation whose instance has an explicitly set NON-EMPTY method name
different from the field name makes building fail with a DefinitionError,
while an explicitly empty method name counts as unset (line 291 is a
truthiness test) and is likewise replaced by the field name; a field that
also carries an Operation[I, O] type annotation skips this equality check
entirely and keeps its explicit method name, as the counterexample
shows. -/
theorem C4_amended_method_name_rules (uc : UserClass) (k : String)
    (op : Operation) :
    (∀ res, collect_operations uc = .ok res →
      (k, DictVal.opInst op) ∈ uc.dict_entries →
      op.method_name = none →
      ∃ op2, alookup res op.name = some op2 ∧
        op2.method_name = some k ∧ op2.name = op.name) ∧
    (∀ m, op.method_name = some m → m ≠ k → m ≠ "" →
      alookup (opAnnList uc) k = none →
      (k, DictVal.opInst op) ∈ uc.dict_entries →
      ∃ e, collect_operations uc = .error e) ∧
    (∀ m, op.method_name = some m → m ≠ k → m ≠ "" →
      processKey k (KeySrc.instOnly op) = .error (.definitionError
        ("Operation " ++ k ++ " method_name (" ++ m ++
         ") must match attribute name " ++ k))) ∧
    (optFalsy op.method_name = true →
      processKey k (KeySrc.instOnly op) =
        .ok { op with method_name := some k }) := by
  refine ⟨?_, ?_, ?_, ?_⟩
  · intro res hcol hmem hmn
    simp only [collect_operations] at hcol
    cases hs : scanDict uc.dict_entries with
    | error e =>
      simp only [hs] at hcol
      simp at hcol
    | ok dops =>
      simp only [hs] at hcol
      have hdops : dops = dictOps0 uc.dict_entries := scanDict_ok _ _ hs
      subst hdops
      cases hp : processAll (keyData (dictOps0 uc.dict_entries)
          (opAnnList uc)) with
      | error e =>
        simp only [hp] at hcol
        simp at hcol
      | ok procd =>
        simp only [hp] at hcol
        have hdmem : (k, op) ∈ dictOps0 uc.dict_entries :=
          List.mem_filterMap.mpr ⟨(k, DictVal.opInst op), hmem, rfl⟩
        have hkd := keyData_mem_inst (dictOps0 uc.dict_entries)
          (opAnnList uc) k op hdmem
        cases hann : alookup (opAnnList uc) k with
        | none =>
          simp only [hann] at hkd
          obtain ⟨op2, hop2, hopmem⟩ := processAll_mem _ procd hp _ hkd
          have hfal : optFalsy op.method_name = true := by rw [hmn]; rfl
          have hpk : processKey k (KeySrc.instOnly op) =
              .ok { op with method_name := some k } := by
            simp [processKey, hfal]
          rw [hpk] at hop2
          injection hop2 with hop2
          have hres := (opsByNameGo_props procd [] res hcol).2 op2 hopmem
          refine ⟨op2, ?_, ?_, ?_⟩
          · rw [← hop2] at hres ⊢
            exact hres
          · rw [← hop2]
          · rw [← hop2]
        | some args =>
          simp only [hann] at hkd
          obtain ⟨op2, hop2, hopmem⟩ := processAll_mem _ procd hp _ hkd
          cases args with
          | nil => simp [processKey] at hop2
          | cons i rest =>
            cases rest with
            | nil => simp [processKey] at hop2
            | cons o rest2 =>
              cases rest2 with
              | cons z rest3 => simp [processKey] at hop2
              | nil =>
                simp only [processKey] at hop2
                cases he1 : enrichInput op i with
                | error e =>
                  simp only [he1] at hop2
                  simp at hop2
                | ok op1 =>
                  simp only [he1] at hop2
                  cases he2 : enrichOutput op1 o with
                  | error e =>
                    simp only [he2] at hop2
                    simp at hop2
                  | ok op1b =>
                    simp only [he2] at hop2
                    simp at hop2
                    obtain ⟨hn1, hm1⟩ := enrichInput_ok op op1 i he1
                    obtain ⟨hn2, hm2⟩ := enrichOutput_ok op1 op1b o he2
                    have hmn1b : op1b.method_name = none := by
                      rw [hm2, hm1, hmn]
                    obtain ⟨hdm, hdn⟩ := defaultMn_none k op1b hmn1b
                    have hres := (opsByNameGo_props procd [] res hcol).2
                      op2 hopmem
                    refine ⟨op2, ?_, ?_, ?_⟩
                    · rw [← hop2] at hres ⊢
                      rw [hdn, hn2, hn1] at hres
                      exact hres
                    · rw [← hop2]
                      exact hdm
                    · rw [← hop2]
                      rw [hdn, hn2, hn1]
  · intro m hm hne hne2 hann hmem
    cases hs : scanDict uc.dict_entries with
    | error e =>
      exact ⟨e, by simp only [collect_operations, hs]⟩
    | ok dops =>
      have hdops : dops = dictOps0 uc.dict_entries := scanDict_ok _ _ hs
      subst hdops
      have hdmem : (k, op) ∈ dictOps0 uc.dict_entries :=
        List.mem_filterMap.mpr ⟨(k, DictVal.opInst op), hmem, rfl⟩
      have hkd := keyData_mem_inst (dictOps0 uc.dict_entries)
        (opAnnList uc) k op hdmem
      simp only [hann] at hkd
      have hpk : processKey k (KeySrc.instOnly op) = .error (.definitionError
          ("Operation " ++ k ++ " method_name (" ++ m ++
           ") must match attribute name " ++ k)) := by
        simp [processKey, hm, fmtOpt, optFalsy, hne2, hne]
      obtain ⟨e2, he2⟩ := processAll_error _ _ hkd _ hpk
      exact ⟨e2, by simp only [collect_operations, hs, he2]⟩
  · intro m hm hne hne2
    simp [processKey, hm, fmtOpt, optFalsy, hne2, hne]
  · intro hfal
    simp [processKey, hfal]

/-- Witness for the amended C4: an instance field without a method name
receives the field name foo; an unannotated instance field with explicit
non-empty method name bar different from foo makes building fail; and an
unannotated instance field with an explicitly EMPTY method name is
defaulted to the field name instead of failing. -/
theorem C4_amended_method_name_rules_witness :
    (∃ op2, alookup [("foo",
        (⟨"foo", some "foo", none, none⟩ : Operation))] "foo" = some op2 ∧
      op2.method_name = some "foo" ∧ op2.name = "foo") ∧
    (∃ e, collect_operations
      ⟨"S", [("foo", .opInst ⟨"x", some "bar", none, none⟩)], [], []⟩ =
      .error e) ∧
    processKey "foo" (KeySrc.instOnly ⟨"x", some "", none, none⟩) =
      .ok ⟨"x", some "foo", none, none⟩ := by
  refine ⟨?_, ?_, ?_⟩
  · exact (C4_amended_method_name_rules
      ⟨"S", [("foo", .opInst ⟨"foo", none, none, none⟩)], [], []⟩
      "foo" ⟨"foo", none, none, none⟩).1
      [("foo", ⟨"foo", some "foo", none, none⟩)]
      (by decide) (by decide) rfl
  · exact (C4_amended_method_name_rules
      ⟨"S", [("foo", .opInst ⟨"x", some "bar", none, none⟩)], [], []⟩
      "foo" ⟨"x", some "bar", none, none⟩).2.1
      "bar" rfl (by decide) (by decide) (by decide) (by decide)
  · exact (C4_amended_method_name_rules
      ⟨"S", [], [], []⟩ "foo" ⟨"x", some "", none, none⟩).2.2.2 rfl

/-- Counterexample for claim C8: the operation named x is declared at the
field foo (an assigned instance with an explicit different name), and the
sibling field baz declares an operation named foo.  Decoration succeeds
and the decorator setattrs each operation under its definition key, i.e.
its operation name, so the class attribute foo ends up holding the
operation named foo — not the operation that was declared at field foo.
An operation of the built definition is therefore not always accessible
under the field name used to declare it. -/
theorem C8_counterexample :
    ∃ dc, service
      ⟨"S", [("foo", .opInst ⟨"x", none, none, none⟩),
             ("baz", .opInst ⟨"foo", none, none, none⟩)],
        [("foo", .opGeneric [.cls 0, .cls 1]),
         ("baz", .opGeneric [.cls 0, .cls 1])], []⟩ none = .ok dc ∧
    alookup dc.defn.operations "x" =
      some ⟨"x", some "foo", some (.cls 0), some (.cls 1)⟩ ∧
    alookup dc.dict "foo" =
      some (.opInst ⟨"foo", some "baz", some (.cls 0), some (.cls 1)⟩) := by
  refine ⟨⟨⟨"S",
    [("x", ⟨"x", some "foo", some (.cls 0), some (.cls 1)⟩),
     ("foo", ⟨"foo", some "baz", some (.cls 0), some (.cls 1)⟩)]⟩,
    [("foo", .opInst ⟨"foo", some "baz", some (.cls 0), some (.cls 1)⟩),
     ("baz", .opInst ⟨"foo", none, none, none⟩),
     ("x", .opInst ⟨"x", some "foo", some (.cls 0), some (.cls 1)⟩)]⟩,
    ?_, ?_, ?_⟩
  · decide
  · decide
  · decide

/-- Claim C8 as amended: after a service class is successfully decorated,
every operation of the built definition, inherited ones included, is
directly readable as a class attribute under its definition key — the
operation name, which equals the declaring field name for
annotation-declared and for inherited operations: looking that key up in
the decorated class attribute dict yields exactly that Operation instance.
The original claim promised access under the declaring field name; the
counterexample shows an assigned instance with a divergent explicit name
whose declaring field attribute is overwritten by a sibling operation
named like that field. -/
theorem C8_operations_become_class_attributes (uc : UserClass)
    (nm : Option String) (dc : DecoratedClass)
    (hsvc : service uc nm = .ok dc) :
    ∀ n op, alookup dc.defn.operations n = some op →
      alookup dc.dict n = some (.opInst op) := by
  intro n op hlk
  rw [service] at hsvc
  by_cases hnm : nm = some ""
  · rw [if_pos hnm] at hsvc
    simp at hsvc
  · rw [if_neg hnm] at hsvc
    cases hfc : ServiceDefinition.from_class uc (nm.getD uc.name) with
    | error e =>
      rw [hfc] at hsvc
      simp at hsvc
    | ok defn =>
      rw [hfc] at hsvc
      simp at hsvc
      subst hsvc
      have hnd : (defn.operations.map Prod.fst).Nodup :=
        from_class_nodup uc _ defn hfc
      have hmem := alookup_mem hlk
      exact foldl_setattr_mem _ _ _ _ hnd hmem

/-- Witness for C8: decorating a child class that declares c_op and
inherits p_op exposes both as class attributes, p_op included although it
was never declared on the child. -/
theorem C8_operations_become_class_attributes_witness :
    service
      ⟨"C", [], [("c_op", .opGeneric [.cls 0, .cls 0])],
        [some ⟨"P", [("p_op",
          ⟨"p_op", some "p_op", some (.cls 0), some (.cls 0)⟩)]⟩]⟩ none =
      .ok ⟨⟨"C",
        [("c_op", ⟨"c_op", some "c_op", some (.cls 0), some (.cls 0)⟩),
         ("p_op", ⟨"p_op", some "p_op", some (.cls 0), some (.cls 0)⟩)]⟩,
        [("c_op", .opInst ⟨"c_op", some "c_op", some (.cls 0), some (.cls 0)⟩),
         ("p_op", .opInst
           ⟨"p_op", some "p_op", some (.cls 0), some (.cls 0)⟩)]⟩ ∧
    alookup (DecoratedClass.mk ⟨"C",
        [("c_op", ⟨"c_op", some "c_op", some (.cls 0), some (.cls 0)⟩),
         ("p_op", ⟨"p_op", some "p_op", some (.cls 0), some (.cls 0)⟩)]⟩
        [("c_op", .opInst ⟨"c_op", some "c_op", some (.cls 0), some (.cls 0)⟩),
         ("p_op", .opInst
           ⟨"p_op", some "p_op", some (.cls 0), some (.cls 0)⟩)]).dict
      "p_op" = some (.opInst
        ⟨"p_op", some "p_op", some (.cls 0), some (.cls 0)⟩) := by
  constructor
  · decide
  · exact C8_operations_become_class_attributes
      ⟨"C", [], [("c_op", .opGeneric [.cls 0, .cls 0])],
        [some ⟨"P", [("p_op",
          ⟨"p_op", some "p_op", some (.cls 0), some (.cls 0)⟩)]⟩]⟩ none
      ⟨⟨"C",
        [("c_op", ⟨"c_op", some "c_op", some (.cls 0), some (.cls 0)⟩),
         ("p_op", ⟨"p_op", some "p_op", some (.cls 0), some (.cls 0)⟩)]⟩,
        [("c_op", .opInst ⟨"c_op", some "c_op", some (.cls 0), some (.cls 0)⟩),
         ("p_op", .opInst
           ⟨"p_op", some "p_op", some (.cls 0), some (.cls 0)⟩)]⟩
      (by decide) "p_op"
      ⟨"p_op", some "p_op", some (.cls 0), some (.cls 0)⟩ (by decide)

end Nexus
